import Mathlib

/-!
Verification of the zamboni feed subsystem (mkt/feed/views.py and
mkt/websites/models.py) against its natural-language specification.

The embedding is shallow: the request handlers become pure Lean functions
over explicit state (the FeedItem table is a list of rows), JSON values
become an inductive type, and Python exceptions become explicit result
constructors.  `mkt.regions.REGIONS_DICT` (a constant mapping of region
names to region objects, outside the analysed slice) is a parameter
`dict : List (String × Nat)` mapping a region name to its canonical id.
-/

/-- A JSON scalar appearing inside a feed entry: the payload entries are
arrays whose components are strings (the item type) or integers (the id). -/
inductive JVal where
  | s (v : String)
  | i (v : Int)
deriving DecidableEq, Repr

/-- Modelled from the spec: the FeedItem model (mkt/feed/models.py is not
under src/).  Per spec section 3, a FeedItem has a region (enum id), an
order, an item_type tag in app|brand|collection, exactly one populated
foreign reference app_id/brand_id/collection_id matching item_type, and an
optional carrier scope; rows built by the feed builder carry no carrier. -/
structure FeedItem where
  region : Nat
  order : Nat
  item_type : String
  app_id : Option JVal := none
  brand_id : Option JVal := none
  collection_id : Option JVal := none
  carrier : Option Nat := none
deriving DecidableEq, Repr

/-- The row the builder constructs: region, order, item_type, and the single
foreign-key field named item_type ++ "_id" set to the entry id
(views.py lines 133-139). -/
def rowFor (rid order : Nat) (t : String) (v : JVal) : FeedItem :=
  { region := rid, order := order, item_type := t,
    app_id := if t = "app" then some v else none,
    brand_id := if t = "brand" then some v else none,
    collection_id := if t = "collection" then some v else none,
    carrier := none }

/-- Errors the build loop of FeedBuilderView.put can raise.
valueError is the caught unpacking failure (entry not a two-element array);
typeError is the uncaught failure when item_type is not a string or names no
foreign-key field of FeedItem; keyErr is an uncaught region lookup miss. -/
inductive BuildErr where
  | valueError
  | typeError
  | keyErr
deriving DecidableEq, Repr

/-- Python tuple unpacking `item_type, item_id = feed_element` (line 128):
succeeds exactly on two-element arrays, otherwise raises ValueError. -/
def unpack2 : List JVal → Except BuildErr (JVal × JVal)
  | [a, b] => Except.ok (a, b)
  | _ => Except.error BuildErr.valueError

/-- Constructing one FeedItem (lines 133-139).  `item_type + '_id'` requires
a string item_type, and the FeedItem constructor accepts only the keyword
arguments app_id, brand_id and collection_id among `..._id`; any other tag
raises an uncaught TypeError. -/
def mkRow (rid order : Nat) : JVal → JVal → Except BuildErr FeedItem
  | JVal.s t, v =>
    if t = "app" ∨ t = "brand" ∨ t = "collection" then
      Except.ok (rowFor rid order t v)
    else
      Except.error BuildErr.typeError
  | JVal.i _, _ => Except.error BuildErr.typeError

/-- The inner loop of put for one region: enumerate the submitted entries
from position `order`, unpacking and constructing a row for each
(lines 126-139). -/
def buildRegion (rid : Nat) : Nat → List (List JVal) → Except BuildErr (List FeedItem)
  | _, [] => Except.ok []
  | order, e :: rest =>
    match unpack2 e with
    | Except.error err => Except.error err
    | Except.ok (a, b) =>
      match mkRow rid order a b with
      | Except.error err => Except.error err
      | Except.ok row =>
        match buildRegion rid (order + 1) rest with
        | Except.error err => Except.error err
        | Except.ok rows => Except.ok (row :: rows)

/-- The outer loop of put over request.DATA.items() (line 125), accumulating
the flat feed_items list region by region.  The region-name lookup of
line 134 is hoisted before the entry loop; it can only be reached after the
lookups of line 119 already succeeded, so the hoisting is unobservable. -/
def buildItems (dict : List (String × Nat)) : List (String × List (List JVal)) → Except BuildErr (List FeedItem)
  | [] => Except.ok []
  | (name, es) :: rest =>
    match dict.lookup name with
    | none => Except.error BuildErr.keyErr
    | some rid =>
      match buildRegion rid 0 es with
      | Except.error err => Except.error err
      | Except.ok rows =>
        match buildItems dict rest with
        | Except.error err => Except.error err
        | Except.ok more => Except.ok (rows ++ more)

/-- Line 119: `[REGIONS_DICT[region].id for region in request.DATA.keys()]`.
An unrecognized name raises an uncaught KeyError, modelled as `none`. -/
def resolveRegions (dict : List (String × Nat)) : List String → Option (List Nat)
  | [] => some []
  | n :: ns =>
    match dict.lookup n with
    | none => none
    | some rid =>
      match resolveRegions dict ns with
      | none => none
      | some rest => some (rid :: rest)

/-- Line 121-122 deletes the rows with carrier None and region in the
resolved set; a stored row survives the delete exactly when keepRow holds. -/
def keepRow (rids : List Nat) (r : FeedItem) : Bool :=
  !(r.carrier == none && rids.contains r.region)

/-- Outcome of FeedBuilderView.put as observed at the HTTP boundary:
a 201 response, a 400 response with a message, or an uncaught Python
exception (KeyError / TypeError) that the framework surfaces as a server
error, not as a 400. -/
inductive PutResult where
  | keyError
  | pyError
  | badRequest (msg : String)
  | created
deriving DecidableEq, Repr

/-- FeedBuilderView.put (views.py lines 102-142).  State passing is explicit:
`db` is the FeedItem table before the request, the second component of the
result is the table after it. -/
def put (dict : List (String × Nat)) (payload : List (String × List (List JVal)))
    (db : List FeedItem) : PutResult × List FeedItem :=
  match resolveRegions dict (payload.map Prod.fst) with
  | none => (PutResult.keyError, db)
  | some rids =>
    match buildItems dict payload with
    | Except.error BuildErr.valueError =>
      (PutResult.badRequest ("Expected two-element arrays."), db.filter (keepRow rids))
    | Except.error BuildErr.typeError =>
      (PutResult.pyError, db.filter (keepRow rids))
    | Except.error BuildErr.keyErr =>
      (PutResult.keyError, db.filter (keepRow rids))
    | Except.ok items => (PutResult.created, db.filter (keepRow rids) ++ items)

/-- An entry is well-formed when it is a two-element array whose first
component is one of the three recognized item types. -/
def validEntry : List JVal → Bool
  | [JVal.s t, _] => t == "app" || t == "brand" || t == "collection"
  | _ => false

/-- The row a well-formed entry `[item_type, item_id]` at position k of a
region's submitted list should produce (the second equation is junk for
entries a valid payload never contains). -/
def specRow (rid k : Nat) : List JVal → FeedItem
  | [JVal.s t, v] => rowFor rid k t v
  | _ => rowFor rid k ("") (JVal.i 0)

/-- The rows a region's submitted list should produce, starting at
position `k`: the entry at offset j yields the row with order k + j. -/
def specRowsFrom (rid : Nat) : Nat → List (List JVal) → List FeedItem
  | _, [] => []
  | k, e :: rest => specRow rid k e :: specRowsFrom rid (k + 1) rest

/-- The rows a region's submitted list should produce, one per entry,
orders counting up from 0. -/
def specRows (rid : Nat) (es : List (List JVal)) : List FeedItem :=
  specRowsFrom rid 0 es

/-- The carrier-less rows of one region: the slice of the table the rebuild
contract speaks about. -/
def carrierlessIn (rid : Nat) (r : FeedItem) : Bool :=
  r.carrier == none && r.region == rid

/-- Whether a put outcome is a 400 response (of any message). -/
def isBadRequest : PutResult → Bool
  | PutResult.badRequest _ => true
  | _ => false

/-! ### Feed collections: BaseFeedCollectionViewSet (views.py lines 26-77) -/

/-- Modelled from the spec: the base record of a FeedBrand / FeedCollection
(mkt/feed/models.py is not under src/).  `pk` is the persisted primary key,
`fields` the validated base fields, `apps` the ordered many-to-many
association to marketplace apps (spec section 3). -/
structure BaseFeedCollection where
  pk : Nat
  fields : List (String × String)
  apps : List Int
deriving DecidableEq, Repr

/-- Modelled from the spec: the model-level set_apps of BaseFeedCollection
(mkt/feed/models.py, not under src/).  Spec section 4.2 step 3: resolve each
submitted id to an existing app and attach the association in submitted
order; if any id does not resolve it raises Webapp.DoesNotExist, modelled
as `none`.  `webapps` is the set of existing app ids. -/
def model_set_apps (webapps : List Int) (obj : BaseFeedCollection)
    (apps : List Int) : Option BaseFeedCollection :=
  if apps.all (fun a => webapps.contains a) then some { obj with apps := apps }
  else none

/-- BaseFeedCollectionViewSet.set_apps (views.py lines 49-54): skipped
entirely when `apps` is falsy (the empty list); otherwise the model call,
with Webapp.DoesNotExist turned into ParseError carrying the fixed
`doesnt_exist` message. -/
def set_apps (webapps : List Int) (obj : BaseFeedCollection) (apps : List Int) :
    Except String BaseFeedCollection :=
  if apps.isEmpty then Except.ok obj
  else
    match model_set_apps webapps obj apps with
    | none => Except.error ("One or more of the specified `apps` do not exist.")
    | some obj2 => Except.ok obj2

/-- A create request after JSON parsing: the base fields, the popped `apps`
list (request.DATA.pop('apps', [])), and the outcome of the external
serializer validation (serializer.is_valid()). -/
structure CreateRequest where
  data : List (String × String)
  apps : List Int
  valid : Bool
deriving DecidableEq, Repr

/-- The HTTP status and, for a ParseError, its detail message. -/
structure HttpOut where
  status : Nat
  detail : Option String
deriving DecidableEq, Repr

/-- BaseFeedCollectionViewSet.create (views.py lines 56-70).  `apps` is
popped before validation; on a valid serializer the base record is saved
(appended with a fresh pk `newPk`), then set_apps runs; a ParseError raised
there propagates as a 400 after the save, leaving the saved record in
place; on success the association is stored and a 201 returned. -/
def create (webapps : List Int) (req : CreateRequest)
    (db : List BaseFeedCollection) (newPk : Nat) :
    HttpOut × List BaseFeedCollection :=
  if req.valid then
    match set_apps webapps { pk := newPk, fields := req.data, apps := [] } req.apps with
    | Except.error msg =>
      ({ status := 400, detail := some msg },
       db ++ [{ pk := newPk, fields := req.data, apps := [] }])
    | Except.ok obj2 =>
      ({ status := 201, detail := none },
       (db ++ [({ pk := newPk, fields := req.data, apps := [] } : BaseFeedCollection)]).map
         (fun r => if r.pk = newPk then obj2 else r))
  else
    ({ status := 400, detail := none }, db)

/-- BaseFeedCollectionViewSet.update (views.py lines 72-77): pop `apps`,
run set_apps against the existing object first, then hand over to the
generic framework update, modelled (from the spec's collaborator contract)
as replacing the base fields with the submitted ones. -/
def update (webapps : List Int) (newData : List (String × String))
    (apps : List Int) (obj : BaseFeedCollection) : HttpOut × BaseFeedCollection :=
  match set_apps webapps obj apps with
  | Except.error msg => ({ status := 400, detail := some msg }, obj)
  | Except.ok obj2 => ({ status := 200, detail := none }, { obj2 with fields := newData })


/-! ### Website search-index synchronization (mkt/websites/models.py) -/

/-- The Website model (websites/models.py lines 17-33); only the fields
relevant to index synchronization are kept concrete, the id being the one
the signal receivers use. -/
structure Website where
  id : Nat
  url : String
  title : String
  status : Nat
  is_disabled : Bool
deriving DecidableEq, Repr

/-- An operation sent to the external search-index collaborator,
by document id. -/
inductive IndexOp where
  | index_ids (ids : List Nat)
  | unindex (id : Nat)
deriving DecidableEq, Repr

/-- The post_save receiver (models.py lines 87-90):
`instance.get_indexer().index_ids([instance.id])`. -/
def update_search_index (w : Website) : IndexOp :=
  IndexOp.index_ids [w.id]

/-- The post_delete receiver (models.py lines 93-97):
`instance.get_indexer().unindex(instance.id)`. -/
def delete_search_index (w : Website) : IndexOp :=
  IndexOp.unindex w.id

/-- A persistence event on a Website row: post_save fires after every
create or update, post_delete after every delete. -/
inductive WebsiteEvent where
  | save (w : Website)
  | del (w : Website)
deriving DecidableEq, Repr

/-- Modelled from the spec: Django's signal dispatch.  The receivers are
connected with dispatch_uid website_index / website_unindex, so each event
triggers exactly its one receiver, synchronously in the same request. -/
def signalOps : WebsiteEvent → List IndexOp
  | WebsiteEvent.save w => [update_search_index w]
  | WebsiteEvent.del w => [delete_search_index w]

/-- Modelled from the spec: the external indexing collaborator offers
index/unindex of a document by id (spec sections 1 and 4.3); the index is
the list of indexed document ids. -/
def applyIndexOp (idx : List Nat) : IndexOp → List Nat
  | IndexOp.index_ids ids =>
    ids.foldl (fun acc i => if acc.contains i then acc else acc ++ [i]) idx
  | IndexOp.unindex i => idx.filter (fun j => j != i)

/-- The relational store rows and the search index side by side. -/
structure WebsiteState where
  rows : List Website
  index : List Nat
deriving DecidableEq, Repr

/-- Modelled from the spec: the ORM save (create-or-update by primary
key). -/
def saveRow (rows : List Website) (w : Website) : List Website :=
  if rows.any (fun r => r.id == w.id) then
    rows.map (fun r => if r.id = w.id then w else r)
  else rows ++ [w]

/-- One request's effect on rows and index: the row mutation plus the
index operations its signal receivers emit, in the same request. -/
def stepWebsite (st : WebsiteState) : WebsiteEvent → WebsiteState
  | WebsiteEvent.save w =>
    { rows := saveRow st.rows w,
      index := (signalOps (WebsiteEvent.save w)).foldl applyIndexOp st.index }
  | WebsiteEvent.del w =>
    { rows := st.rows.filter (fun r => r.id != w.id),
      index := (signalOps (WebsiteEvent.del w)).foldl applyIndexOp st.index }

/-- The index and the stored rows agree: every stored id is indexed and
every indexed id is stored. -/
def inSync (st : WebsiteState) : Bool :=
  st.rows.all (fun r => st.index.contains r.id) &&
  st.index.all (fun i => st.rows.any (fun r => r.id == i))

/-! ### Basic lemmas about the build loop -/

theorem mkRow_ok {rid k : Nat} {a b : JVal} {row : FeedItem}
    (h : mkRow rid k a b = Except.ok row) :
    row.region = rid ∧ row.carrier = none ∧ row.order = k := by
  cases a with
  | i v => exact Except.noConfusion h
  | s t =>
    rw [mkRow] at h
    split at h
    · injection h with h
      subst h
      exact ⟨rfl, rfl, rfl⟩
    · exact Except.noConfusion h

theorem buildRegion_ok_mem {rid : Nat} {es : List (List JVal)} :
    ∀ {k : Nat} {rows : List FeedItem}, buildRegion rid k es = Except.ok rows →
      ∀ r ∈ rows, r.region = rid ∧ r.carrier = none := by
  induction es with
  | nil =>
    intro k rows h r hr
    rw [buildRegion] at h
    injection h with h
    subst h
    cases hr
  | cons e rest ih =>
    intro k rows h r hr
    rw [buildRegion] at h
    cases hu : unpack2 e with
    | error err => simp only [hu] at h; exact Except.noConfusion h
    | ok ab =>
      obtain ⟨a, b⟩ := ab
      simp only [hu] at h
      cases hm : mkRow rid k a b with
      | error err => simp only [hm] at h; exact Except.noConfusion h
      | ok row =>
        simp only [hm] at h
        cases hb : buildRegion rid (k + 1) rest with
        | error err => simp only [hb] at h; exact Except.noConfusion h
        | ok rows2 =>
          simp only [hb] at h
          injection h with h
          subst h
          cases hr with
          | head =>
            obtain ⟨h1, h2, _⟩ := mkRow_ok hm
            exact ⟨h1, h2⟩
          | tail _ hr2 => exact ih hb r hr2

theorem validEntry_elim {e : List JVal} (h : validEntry e = true) :
    ∃ t v, e = [JVal.s t, v] ∧ (t = "app" ∨ t = "brand" ∨ t = "collection") := by
  cases e with
  | nil => exact Bool.noConfusion h
  | cons a tl =>
    cases tl with
    | nil => cases a <;> exact Bool.noConfusion h
    | cons b tl2 =>
      cases tl2 with
      | nil =>
        cases a with
        | s t =>
          refine ⟨t, b, rfl, ?_⟩
          simpa [validEntry, or_assoc] using h
        | i n => exact Bool.noConfusion h
      | cons c tl3 => cases a <;> exact Bool.noConfusion h

theorem buildRegion_valid {rid : Nat} {es : List (List JVal)}
    (hv : ∀ e ∈ es, validEntry e = true) :
    ∀ k, buildRegion rid k es = Except.ok (specRowsFrom rid k es) := by
  induction es with
  | nil => intro k; rfl
  | cons e rest ih =>
    intro k
    obtain ⟨t, v, he, ht⟩ := validEntry_elim (hv e (List.mem_cons_self e rest))
    subst he
    have hrest : ∀ x ∈ rest, validEntry x = true :=
      fun x hx => hv x (List.mem_cons_of_mem _ hx)
    rw [buildRegion]
    simp only [unpack2]
    rw [mkRow, if_pos ht]
    rw [ih hrest (k + 1)]
    rfl

/-! ### Lemmas about region resolution -/

theorem resolve_lookup_mem {dict : List (String × Nat)} :
    ∀ {ns : List String} {rs : List Nat}, resolveRegions dict ns = some rs →
      ∀ {n : String} {rid : Nat}, n ∈ ns → dict.lookup n = some rid → rid ∈ rs := by
  intro ns
  induction ns with
  | nil => intro rs h n rid hn; cases hn
  | cons m ms ih =>
    intro rs h n rid hn hl
    rw [resolveRegions] at h
    cases hm : dict.lookup m with
    | none => simp only [hm] at h; exact Option.noConfusion h
    | some r1 =>
      simp only [hm] at h
      cases hrec : resolveRegions dict ms with
      | none => simp only [hrec] at h; exact Option.noConfusion h
      | some rest =>
        simp only [hrec] at h
        injection h with h
        subst h
        cases hn with
        | head =>
          rw [hl] at hm
          injection hm with hm
          rw [hm]
          exact List.mem_cons_self _ _
        | tail _ hn2 => exact List.mem_cons_of_mem _ (ih hrec hn2 hl)

theorem resolve_isSome {dict : List (String × Nat)} :
    ∀ {ns : List String} {rs : List Nat}, resolveRegions dict ns = some rs →
      ∀ n ∈ ns, (dict.lookup n).isSome = true := by
  intro ns
  induction ns with
  | nil => intro rs h n hn; cases hn
  | cons m ms ih =>
    intro rs h n hn
    rw [resolveRegions] at h
    cases hm : dict.lookup m with
    | none => simp only [hm] at h; exact Option.noConfusion h
    | some r1 =>
      simp only [hm] at h
      cases hrec : resolveRegions dict ms with
      | none => simp only [hrec] at h; exact Option.noConfusion h
      | some rest =>
        cases hn with
        | head => rw [hm]; rfl
        | tail _ hn2 => exact ih hrec n hn2

theorem resolveRegions_none {dict : List (String × Nat)} :
    ∀ {ns : List String}, (∃ n ∈ ns, dict.lookup n = none) →
      resolveRegions dict ns = none := by
  intro ns
  induction ns with
  | nil => rintro ⟨n, hn, _⟩; cases hn
  | cons m ms ih =>
    rintro ⟨n, hn, hl⟩
    rw [resolveRegions]
    cases hn with
    | head => simp only [hl]
    | tail _ h2 =>
      cases hm : dict.lookup m with
      | none => rfl
      | some r => simp only [ih ⟨n, h2, hl⟩]

/-! ### Lemmas about the full build pass -/

theorem buildItems_ok_regions {dict : List (String × Nat)} :
    ∀ {payload : List (String × List (List JVal))} {rs : List Nat} {items : List FeedItem},
      resolveRegions dict (payload.map Prod.fst) = some rs →
      buildItems dict payload = Except.ok items →
      ∀ r ∈ items, r.carrier = none ∧ r.region ∈ rs := by
  intro payload
  induction payload with
  | nil =>
    intro rs items _ hb r hr
    rw [buildItems] at hb
    injection hb with hb
    subst hb
    cases hr
  | cons q rest ih =>
    obtain ⟨name, es⟩ := q
    intro rs items h hb r hr
    simp only [List.map_cons] at h
    rw [resolveRegions] at h
    rw [buildItems] at hb
    cases hl : dict.lookup name with
    | none => simp only [hl] at h; exact Option.noConfusion h
    | some rid =>
      simp only [hl] at h hb
      cases hrec : resolveRegions dict (rest.map Prod.fst) with
      | none => simp only [hrec] at h; exact Option.noConfusion h
      | some rs2 =>
        simp only [hrec] at h
        injection h with h
        subst h
        cases hbr : buildRegion rid 0 es with
        | error err => simp only [hbr] at hb; exact Except.noConfusion hb
        | ok rows =>
          simp only [hbr] at hb
          cases hbi : buildItems dict rest with
          | error err => simp only [hbi] at hb; exact Except.noConfusion hb
          | ok more =>
            simp only [hbi] at hb
            injection hb with hb
            subst hb
            rcases List.mem_append.mp hr with hr1 | hr2
            · obtain ⟨hreg, hcar⟩ := buildRegion_ok_mem hbr r hr1
              exact ⟨hcar, by rw [hreg]; exact List.mem_cons_self _ _⟩
            · obtain ⟨hcar, hmem⟩ := ih hrec hbi r hr2
              exact ⟨hcar, List.mem_cons_of_mem _ hmem⟩

theorem buildItems_filter {dict : List (String × Nat)} :
    ∀ {payload : List (String × List (List JVal))} {rids : List Nat} {items : List FeedItem},
      resolveRegions dict (payload.map Prod.fst) = some rids →
      rids.Nodup →
      buildItems dict payload = Except.ok items →
      ∀ {name : String} {es : List (List JVal)} {rid : Nat},
        (name, es) ∈ payload → dict.lookup name = some rid →
        ∃ rows, buildRegion rid 0 es = Except.ok rows ∧
          items.filter (carrierlessIn rid) = rows := by
  intro payload
  induction payload with
  | nil => intro rids items _ _ _ name es rid hmem; cases hmem
  | cons q rest ih =>
    obtain ⟨n1, es1⟩ := q
    intro rids items h hnd hb name es rid hmem hlook
    simp only [List.map_cons] at h
    rw [resolveRegions] at h
    rw [buildItems] at hb
    cases hl : dict.lookup n1 with
    | none => simp only [hl] at h; exact Option.noConfusion h
    | some r1 =>
      simp only [hl] at h hb
      cases hrec : resolveRegions dict (rest.map Prod.fst) with
      | none => simp only [hrec] at h; exact Option.noConfusion h
      | some rs2 =>
        simp only [hrec] at h
        injection h with h
        subst h
        cases hbr : buildRegion r1 0 es1 with
        | error err => simp only [hbr] at hb; exact Except.noConfusion hb
        | ok rows1 =>
          simp only [hbr] at hb
          cases hbi : buildItems dict rest with
          | error err => simp only [hbi] at hb; exact Except.noConfusion hb
          | ok more =>
            simp only [hbi] at hb
            injection hb with hb
            subst hb
            rw [List.nodup_cons] at hnd
            obtain ⟨hr1notin, hnd2⟩ := hnd
            rcases List.mem_cons.mp hmem with hhead | htail
            · -- the queried region is the head block
              injection hhead with he1 he2
              subst he1
              subst he2
              rw [hlook] at hl
              injection hl with hl
              subst hl
              refine ⟨rows1, hbr, ?_⟩
              rw [List.filter_append]
              have hfr : rows1.filter (carrierlessIn rid) = rows1 := by
                rw [List.filter_eq_self]
                intro r hr
                obtain ⟨hreg, hcar⟩ := buildRegion_ok_mem hbr r hr
                simp [carrierlessIn, hreg, hcar]
              have hfm : more.filter (carrierlessIn rid) = [] := by
                rw [List.filter_eq_nil_iff]
                intro r hr
                obtain ⟨hcar, hmem2⟩ := buildItems_ok_regions hrec hbi r hr
                simp only [carrierlessIn, Bool.and_eq_true, beq_iff_eq]
                rintro ⟨-, hreg⟩
                rw [hreg] at hmem2
                exact hr1notin hmem2
              rw [hfr, hfm, List.append_nil]
            · -- the queried region sits in the tail blocks
              have hridmem : rid ∈ rs2 :=
                resolve_lookup_mem hrec (List.mem_map_of_mem Prod.fst htail) hlook
              have hr1ne : r1 ≠ rid := fun hEq => hr1notin (hEq ▸ hridmem)
              obtain ⟨rows, hbr2, hfil⟩ := ih hrec hnd2 hbi htail hlook
              refine ⟨rows, hbr2, ?_⟩
              rw [List.filter_append]
              have hfr : rows1.filter (carrierlessIn rid) = [] := by
                rw [List.filter_eq_nil_iff]
                intro r hr
                obtain ⟨hreg, -⟩ := buildRegion_ok_mem hbr r hr
                simp only [carrierlessIn, Bool.and_eq_true, beq_iff_eq]
                rintro ⟨-, hreg2⟩
                exact hr1ne (hreg ▸ hreg2)
              rw [hfr, hfil, List.nil_append]

theorem filter_keep_filter_carrierless {rids : List Nat} {rid : Nat}
    (hrid : rid ∈ rids) (db : List FeedItem) :
    (db.filter (keepRow rids)).filter (carrierlessIn rid) = [] := by
  rw [List.filter_eq_nil_iff]
  intro r hr
  have hk : keepRow rids r = true := (List.mem_filter.mp hr).2
  simp only [keepRow, Bool.not_eq_true', Bool.and_eq_false_iff, beq_eq_false_iff_ne,
    ne_eq] at hk
  simp only [carrierlessIn, Bool.and_eq_true, beq_iff_eq]
  rintro ⟨hcar, hreg⟩
  rcases hk with hk | hk
  · exact hk hcar
  · have hc : rids.contains rid = true := List.elem_iff.mpr hrid
    rw [hreg, hc] at hk
    exact Bool.noConfusion hk

theorem specRow_order (rid k : Nat) (e : List JVal) : (specRow rid k e).order = k := by
  rcases e with - | ⟨a, - | ⟨b, - | ⟨c, tl⟩⟩⟩
  · rfl
  · cases a <;> rfl
  · cases a <;> rfl
  · cases a <;> rfl

theorem specRowsFrom_map_order (rid : Nat) :
    ∀ (es : List (List JVal)) (k : Nat),
      (specRowsFrom rid k es).map FeedItem.order = List.range' k es.length := by
  intro es
  induction es with
  | nil => intro k; rfl
  | cons e rest ih =>
    intro k
    simp only [specRowsFrom, List.map_cons, List.length_cons, List.range',
      specRow_order, ih (k + 1)]

theorem specRows_map_order (rid : Nat) (es : List (List JVal)) :
    (specRows rid es).map FeedItem.order = List.range es.length := by
  rw [specRows, specRowsFrom_map_order, List.range_eq_range']

theorem buildItems_valid {dict : List (String × Nat)} :
    ∀ {payload : List (String × List (List JVal))} {rids : List Nat},
      resolveRegions dict (payload.map Prod.fst) = some rids →
      (∀ p ∈ payload, ∀ e ∈ p.2, validEntry e = true) →
      ∃ items, buildItems dict payload = Except.ok items := by
  intro payload
  induction payload with
  | nil => exact fun _ _ => ⟨[], rfl⟩
  | cons q rest ih =>
    obtain ⟨n1, es1⟩ := q
    intro rids h hv
    simp only [List.map_cons] at h
    rw [resolveRegions] at h
    cases hl : dict.lookup n1 with
    | none => simp only [hl] at h; exact Option.noConfusion h
    | some r1 =>
      simp only [hl] at h
      cases hrec : resolveRegions dict (rest.map Prod.fst) with
      | none => simp only [hrec] at h; exact Option.noConfusion h
      | some rs2 =>
        have hv1 : ∀ e ∈ es1, validEntry e = true :=
          fun e he => hv (n1, es1) (List.mem_cons_self _ _) e he
        have hvr : ∀ p ∈ rest, ∀ e ∈ p.2, validEntry e = true :=
          fun p hp => hv p (List.mem_cons_of_mem _ hp)
        obtain ⟨more, hmore⟩ := ih hrec hvr
        refine ⟨specRowsFrom r1 0 es1 ++ more, ?_⟩
        rw [buildItems]
        simp only [hl, buildRegion_valid hv1 0, hmore]

theorem put_valid_main {dict : List (String × Nat)}
    {payload : List (String × List (List JVal))} {db : List FeedItem} {rids : List Nat}
    (h1 : resolveRegions dict (payload.map Prod.fst) = some rids)
    (h2 : rids.Nodup)
    (h3 : ∀ p ∈ payload, ∀ e ∈ p.2, validEntry e = true) :
    (put dict payload db).1 = PutResult.created ∧
    ∀ {name : String} {es : List (List JVal)} {rid : Nat},
      (name, es) ∈ payload → dict.lookup name = some rid →
      (put dict payload db).2.filter (carrierlessIn rid) = specRows rid es := by
  obtain ⟨items, hbi⟩ := buildItems_valid h1 h3
  constructor
  · rw [put]
    simp only [h1, hbi]
  · intro name es rid hmem hlook
    obtain ⟨rows, hbr, hfil⟩ := buildItems_filter h1 h2 hbi hmem hlook
    have hv : ∀ e ∈ es, validEntry e = true := fun e he => h3 (name, es) hmem e he
    have hspec : rows = specRowsFrom rid 0 es := by
      rw [buildRegion_valid hv 0] at hbr
      injection hbr with hbr
      exact hbr.symm
    have hridmem : rid ∈ rids :=
      resolve_lookup_mem h1 (List.mem_map_of_mem Prod.fst hmem) hlook
    rw [put]
    simp only [h1, hbi]
    rw [List.filter_append, filter_keep_filter_carrierless hridmem db, hfil,
      List.nil_append, hspec, specRows]

/-! ### Lemmas about malformed payloads -/

theorem unpack2_len {e : List JVal} (h : e.length ≠ 2) :
    unpack2 e = Except.error BuildErr.valueError := by
  rcases e with - | ⟨a, - | ⟨b, - | ⟨c, tl⟩⟩⟩
  · rfl
  · rfl
  · exact absurd rfl h
  · rfl

theorem put_unknown_region {dict : List (String × Nat)}
    {payload : List (String × List (List JVal))} (db : List FeedItem)
    (h : ∃ p ∈ payload, dict.lookup p.1 = none) :
    put dict payload db = (PutResult.keyError, db) := by
  obtain ⟨p, hp, hl⟩ := h
  have hres : resolveRegions dict (payload.map Prod.fst) = none :=
    resolveRegions_none ⟨p.1, List.mem_map_of_mem Prod.fst hp, hl⟩
  rw [put]
  simp only [hres]

theorem buildRegion_malformed {rid : Nat} {es : List (List JVal)} :
    ∀ {k : Nat}, (∀ e ∈ es, e.length = 2 → validEntry e = true) →
      (∃ e ∈ es, e.length ≠ 2) →
      buildRegion rid k es = Except.error BuildErr.valueError := by
  induction es with
  | nil => rintro k - ⟨e, he, -⟩; cases he
  | cons e rest ih =>
    intro k hw hbad
    by_cases hlen : e.length = 2
    · obtain ⟨t, v, heq, ht⟩ := validEntry_elim (hw e (List.mem_cons_self _ _) hlen)
      have hbad2 : ∃ x ∈ rest, x.length ≠ 2 := by
        obtain ⟨x, hx, hne⟩ := hbad
        rcases List.mem_cons.mp hx with hx1 | hx2
        · exact absurd (hx1 ▸ hlen) hne
        · exact ⟨x, hx2, hne⟩
      have hw2 : ∀ x ∈ rest, x.length = 2 → validEntry x = true :=
        fun x hx => hw x (List.mem_cons_of_mem _ hx)
      subst heq
      rw [buildRegion]
      simp only [unpack2]
      rw [mkRow, if_pos ht]
      simp only [ih hw2 hbad2]
    · rw [buildRegion]
      simp only [unpack2_len hlen]

theorem buildItems_malformed {dict : List (String × Nat)} :
    ∀ {payload : List (String × List (List JVal))},
      (∀ p ∈ payload, (dict.lookup p.1).isSome = true) →
      (∀ p ∈ payload, ∀ e ∈ p.2, e.length = 2 → validEntry e = true) →
      (∃ p ∈ payload, ∃ e ∈ p.2, e.length ≠ 2) →
      buildItems dict payload = Except.error BuildErr.valueError := by
  intro payload
  induction payload with
  | nil => rintro - - ⟨p, hp, -⟩; cases hp
  | cons q rest ih =>
    obtain ⟨n1, es1⟩ := q
    intro hsome hw hbad
    obtain ⟨r1, hl⟩ :=
      Option.isSome_iff_exists.mp (hsome (n1, es1) (List.mem_cons_self _ _))
    have hw1 : ∀ e ∈ es1, e.length = 2 → validEntry e = true :=
      fun e he => hw (n1, es1) (List.mem_cons_self _ _) e he
    by_cases hb1 : ∃ e ∈ es1, e.length ≠ 2
    · rw [buildItems]
      simp only [hl, buildRegion_malformed hw1 hb1]
    · have hv1 : ∀ e ∈ es1, validEntry e = true := by
        intro e he
        by_cases h2 : e.length = 2
        · exact hw1 e he h2
        · exact absurd ⟨e, he, h2⟩ hb1
      have hbad2 : ∃ p ∈ rest, ∃ e ∈ p.2, e.length ≠ 2 := by
        obtain ⟨p, hp, e, he, hne⟩ := hbad
        rcases List.mem_cons.mp hp with hp1 | hp2
        · subst hp1
          exact absurd ⟨e, he, hne⟩ hb1
        · exact ⟨p, hp2, e, he, hne⟩
      have hsome2 : ∀ p ∈ rest, (dict.lookup p.1).isSome = true :=
        fun p hp => hsome p (List.mem_cons_of_mem _ hp)
      have hw2 : ∀ p ∈ rest, ∀ e ∈ p.2, e.length = 2 → validEntry e = true :=
        fun p hp => hw p (List.mem_cons_of_mem _ hp)
      rw [buildItems]
      simp only [hl, buildRegion_valid hv1 0, ih hsome2 hw2 hbad2]

theorem put_malformed {dict : List (String × Nat)}
    {payload : List (String × List (List JVal))} {db : List FeedItem} {rids : List Nat}
    (h1 : resolveRegions dict (payload.map Prod.fst) = some rids)
    (hw : ∀ p ∈ payload, ∀ e ∈ p.2, e.length = 2 → validEntry e = true)
    (hbad : ∃ p ∈ payload, ∃ e ∈ p.2, e.length ≠ 2) :
    put dict payload db =
      (PutResult.badRequest ("Expected two-element arrays."), db.filter (keepRow rids)) := by
  have hsome : ∀ p ∈ payload, (dict.lookup p.1).isSome = true :=
    fun p hp => resolve_isSome h1 p.1 (List.mem_map_of_mem Prod.fst hp)
  rw [put]
  simp only [h1, buildItems_malformed hsome hw hbad]

theorem set_apps_bad {webapps : List Int} {obj : BaseFeedCollection}
    {apps : List Int} (hbad : ∃ a ∈ apps, a ∉ webapps) :
    set_apps webapps obj apps =
      Except.error ("One or more of the specified `apps` do not exist.") := by
  obtain ⟨a, ha, hna⟩ := hbad
  have hne : apps.isEmpty = false := by
    cases apps with
    | nil => cases ha
    | cons x xs => rfl
  have hall : apps.all (fun a => webapps.contains a) = false := by
    cases hq : apps.all (fun a => webapps.contains a) with
    | false => rfl
    | true =>
      have := List.all_eq_true.mp hq a ha
      exact absurd (List.elem_iff.mp this) hna
  rw [set_apps, hne]
  simp only [Bool.false_eq_true, if_false, model_set_apps, hall]


theorem inSync_iff (st : WebsiteState) :
    inSync st = true ↔
      (∀ r ∈ st.rows, r.id ∈ st.index) ∧
      (∀ i ∈ st.index, ∃ r ∈ st.rows, r.id = i) := by
  simp [inSync, List.all_eq_true, List.any_eq_true, List.elem_iff]

theorem applyIndex_save (idx : List Nat) (n : Nat) :
    applyIndexOp idx (IndexOp.index_ids [n]) = if n ∈ idx then idx else idx ++ [n] := by
  simp only [applyIndexOp, List.foldl_cons, List.foldl_nil]
  by_cases h : n ∈ idx
  · rw [if_pos (List.elem_iff.mpr h), if_pos h]
  · rw [if_neg, if_neg h]
    intro hc
    exact h (List.elem_iff.mp hc)

theorem mem_applyIndex_save {idx : List Nat} {n i : Nat} :
    i ∈ applyIndexOp idx (IndexOp.index_ids [n]) ↔ i ∈ idx ∨ i = n := by
  rw [applyIndex_save]
  by_cases h : n ∈ idx
  · rw [if_pos h]
    constructor
    · exact Or.inl
    · rintro (hi | rfl)
      · exact hi
      · exact h
  · rw [if_neg h]
    simp [List.mem_append]

theorem mem_applyIndex_del {idx : List Nat} {n i : Nat} :
    i ∈ applyIndexOp idx (IndexOp.unindex n) ↔ i ∈ idx ∧ i ≠ n := by
  simp [applyIndexOp, List.mem_filter, bne_iff_ne]

theorem saveRow_mem_elim {rows : List Website} {w r : Website}
    (h : r ∈ saveRow rows w) : r = w ∨ r ∈ rows := by
  rw [saveRow] at h
  split at h
  · obtain ⟨r0, hr0, heq⟩ := List.mem_map.mp h
    by_cases hid : r0.id = w.id
    · rw [if_pos hid] at heq
      exact Or.inl heq.symm
    · rw [if_neg hid] at heq
      exact Or.inr (heq ▸ hr0)
  · rcases List.mem_append.mp h with h1 | h2
    · exact Or.inr h1
    · exact Or.inl (by simpa using h2)

theorem self_mem_saveRow (rows : List Website) (w : Website) : w ∈ saveRow rows w := by
  rw [saveRow]
  split
  · next hany =>
      obtain ⟨r0, hr0, hid⟩ := List.any_eq_true.mp hany
      have hid2 : r0.id = w.id := by simpa using hid
      refine List.mem_map.mpr ⟨r0, hr0, ?_⟩
      rw [if_pos hid2]
  · exact List.mem_append.mpr (Or.inr (List.mem_cons_self _ _))

theorem saveRow_id_surj {rows : List Website} (w : Website) {r0 : Website}
    (hr0 : r0 ∈ rows) : ∃ r ∈ saveRow rows w, r.id = r0.id := by
  rw [saveRow]
  split
  · by_cases hid : r0.id = w.id
    · exact ⟨w, List.mem_map.mpr ⟨r0, hr0, by rw [if_pos hid]⟩, hid.symm⟩
    · exact ⟨r0, List.mem_map.mpr ⟨r0, hr0, by rw [if_neg hid]⟩, rfl⟩
  · exact ⟨r0, List.mem_append.mpr (Or.inl hr0), rfl⟩

theorem stepWebsite_preserves_inSync (st : WebsiteState) (e : WebsiteEvent)
    (h : inSync st = true) : inSync (stepWebsite st e) = true := by
  rw [inSync_iff] at h
  obtain ⟨h1, h2⟩ := h
  rw [inSync_iff]
  cases e with
  | save w =>
    simp only [stepWebsite, signalOps, update_search_index, List.foldl_cons,
      List.foldl_nil]
    constructor
    · intro r hr
      rcases saveRow_mem_elim hr with rfl | hrold
      · exact mem_applyIndex_save.mpr (Or.inr rfl)
      · exact mem_applyIndex_save.mpr (Or.inl (h1 r hrold))
    · intro i hi
      rcases mem_applyIndex_save.mp hi with hold | rfl
      · obtain ⟨r0, hr0, hid⟩ := h2 i hold
        obtain ⟨r, hr, hid2⟩ := saveRow_id_surj w hr0
        exact ⟨r, hr, hid2.trans hid⟩
      · exact ⟨w, self_mem_saveRow _ _, rfl⟩
  | del w =>
    simp only [stepWebsite, signalOps, delete_search_index, List.foldl_cons,
      List.foldl_nil]
    constructor
    · intro r hr
      obtain ⟨hrold, hne⟩ := List.mem_filter.mp hr
      have hne2 : r.id ≠ w.id := by simpa using hne
      exact mem_applyIndex_del.mpr ⟨h1 r hrold, hne2⟩
    · intro i hi
      obtain ⟨hold, hne⟩ := mem_applyIndex_del.mp hi
      obtain ⟨r0, hr0, hid⟩ := h2 i hold
      refine ⟨r0, List.mem_filter.mpr ⟨hr0, ?_⟩, hid⟩
      simp only [bne_iff_ne, ne_eq, hid]
      exact hne

/-! ### The claims -/

/-- C1: for every valid rebuild payload — every region name recognized
(with distinct canonical ids, as REGIONS_DICT assigns them) and every entry
a two-element [item_type, item_id] array with item_type in app, brand,
collection — FeedBuilderView.put returns 201 and, for each submitted
region, the carrier-less FeedItem rows of that region in the resulting
table reproduce the submitted list exactly: the row at position i is built
from the i-th entry (order = i, item_type the entry's first component, and
the foreign-key field named item_type ++ "_id" holding its second
component, per specRow/rowFor), and the orders read 0, 1, ..., n-1. -/
theorem C1_rebuild_reproduces_submitted_lists
    (dict : List (String × Nat)) (payload : List (String × List (List JVal)))
    (db : List FeedItem) (rids : List Nat)
    (h1 : resolveRegions dict (payload.map Prod.fst) = some rids)
    (h2 : rids.Nodup)
    (h3 : ∀ p ∈ payload, ∀ e ∈ p.2, validEntry e = true) :
    (put dict payload db).1 = PutResult.created ∧
    ∀ name es rid, (name, es) ∈ payload → dict.lookup name = some rid →
      (put dict payload db).2.filter (carrierlessIn rid) = specRows rid es ∧
      ((put dict payload db).2.filter (carrierlessIn rid)).map FeedItem.order =
        List.range es.length := by
  obtain ⟨hc, hmain⟩ := put_valid_main h1 h2 h3
  refine ⟨hc, ?_⟩
  intro name es rid hmem hlook
  have hfil := hmain hmem hlook
  exact ⟨hfil, by rw [hfil, specRows_map_order]⟩

/-- Witness for C1: the spec's own section-8 scenario, run on a table that
already holds a carrier-less "us" row and a carrier-scoped one. -/
theorem C1_witness :
    (put [("us", 2), ("uk", 4)]
        [("us", [[JVal.s "app", JVal.i 36], [JVal.s "collection", JVal.i 12]]), ("uk", [])]
        [{ region := 2, order := 0, item_type := "app", app_id := some (JVal.i 99) },
         { region := 2, order := 5, item_type := "brand", brand_id := some (JVal.i 1),
           carrier := some 7 }]).1 = PutResult.created ∧
    (put [("us", 2), ("uk", 4)]
        [("us", [[JVal.s "app", JVal.i 36], [JVal.s "collection", JVal.i 12]]), ("uk", [])]
        [{ region := 2, order := 0, item_type := "app", app_id := some (JVal.i 99) },
         { region := 2, order := 5, item_type := "brand", brand_id := some (JVal.i 1),
           carrier := some 7 }]).2.filter (carrierlessIn 2) =
      specRows 2 [[JVal.s "app", JVal.i 36], [JVal.s "collection", JVal.i 12]] := by
  have h := C1_rebuild_reproduces_submitted_lists
    [("us", 2), ("uk", 4)]
    [("us", [[JVal.s "app", JVal.i 36], [JVal.s "collection", JVal.i 12]]), ("uk", [])]
    [{ region := 2, order := 0, item_type := "app", app_id := some (JVal.i 99) },
     { region := 2, order := 5, item_type := "brand", brand_id := some (JVal.i 1),
       carrier := some 7 }]
    [2, 4] (by decide) (by decide) (by decide)
  exact ⟨h.1, (h.2 "us" [[JVal.s "app", JVal.i 36], [JVal.s "collection", JVal.i 12]] 2
    (by decide) (by decide)).1⟩

/-- C2 as frozen is false on the code: an unrecognized region name makes
line 119 raise an uncaught KeyError — surfaced by the framework as a server
error, not as the claimed HTTP 400 response — although the table is indeed
untouched. -/
theorem C2_counterexample :
    (put [("us", 2)] [("zz", [])]
        [{ region := 2, order := 0, item_type := "app" }]).1 = PutResult.keyError ∧
    isBadRequest (put [("us", 2)] [("zz", [])]
        [{ region := 2, order := 0, item_type := "app" }]).1 = false ∧
    (put [("us", 2)] [("zz", [])]
        [{ region := 2, order := 0, item_type := "app" }]).2 =
      [{ region := 2, order := 0, item_type := "app" }] := by
  decide

/-- C2 (amended): for every rebuild payload containing at least one
unrecognized region name, FeedBuilderView.put rejects the whole request by
raising an uncaught lookup error (PutResult.keyError; a server error at the
HTTP layer rather than a 400) and performs zero mutations: the FeedItem
table is returned unchanged, no row deleted and none inserted. -/
theorem C2_unknown_region_rejected_without_mutation
    (dict : List (String × Nat)) (payload : List (String × List (List JVal)))
    (db : List FeedItem)
    (h : ∃ p ∈ payload, dict.lookup p.1 = none) :
    put dict payload db = (PutResult.keyError, db) :=
  put_unknown_region db h

/-- Witness for the amended C2. -/
theorem C2_witness :
    put [("us", 2)] [("br", [[JVal.s "app", JVal.i 1]])]
        [{ region := 2, order := 0, item_type := "app" }] =
      (PutResult.keyError, [{ region := 2, order := 0, item_type := "app" }]) :=
  C2_unknown_region_rejected_without_mutation [("us", 2)]
    [("br", [[JVal.s "app", JVal.i 1]])]
    [{ region := 2, order := 0, item_type := "app" }]
    ⟨("br", [[JVal.s "app", JVal.i 1]]), by decide, by decide⟩

/-- C3 as frozen is false on the code: a payload can contain an entry that
is not a two-element array and still not get the 400 — here the region name
is also unrecognized, so line 119 raises an uncaught KeyError before the
malformed-entry check is ever reached. -/
theorem C3_counterexample :
    isBadRequest (put [("us", 2)] [("zz", [[JVal.s "app"]])] []).1 = false ∧
    (put [("us", 2)] [("zz", [[JVal.s "app"]])] []).1 = PutResult.keyError := by
  decide

/-- C3 (amended): for every rebuild payload whose region names are all
recognized and whose two-element entries are all well-formed ([item_type in
app|brand|collection, id]), if some entry is not a two-element array then
FeedBuilderView.put returns HTTP 400 with the message "Expected two-element
arrays." and no FeedItem row is inserted: every row of the resulting table
was already stored before the request.  Besides the unrecognized-name
counterexample, the well-formedness restriction is forced as well: a
two-element entry whose first component is no item-type string makes
lines 138-139 raise an uncaught TypeError (no 400) before a later
malformed entry is reached. -/
theorem C3_malformed_entry_400_no_insert
    (dict : List (String × Nat)) (payload : List (String × List (List JVal)))
    (db : List FeedItem) (rids : List Nat)
    (h1 : resolveRegions dict (payload.map Prod.fst) = some rids)
    (hw : ∀ p ∈ payload, ∀ e ∈ p.2, e.length = 2 → validEntry e = true)
    (hbad : ∃ p ∈ payload, ∃ e ∈ p.2, e.length ≠ 2) :
    (put dict payload db).1 = PutResult.badRequest ("Expected two-element arrays.") ∧
    ∀ r ∈ (put dict payload db).2, r ∈ db := by
  have h := @put_malformed dict payload db rids h1 hw hbad
  constructor
  · rw [h]
  · intro r hr
    rw [h] at hr
    exact (List.mem_filter.mp hr).1

/-- Witness for the amended C3. -/
theorem C3_witness :
    (put [("us", 2)] [("us", [[JVal.s "app", JVal.i 1], [JVal.s "collection"]])]
        [{ region := 2, order := 3, item_type := "brand", brand_id := some (JVal.i 2),
           carrier := some 9 }]).1 =
      PutResult.badRequest ("Expected two-element arrays.") ∧
    ∀ r ∈ (put [("us", 2)] [("us", [[JVal.s "app", JVal.i 1], [JVal.s "collection"]])]
        [{ region := 2, order := 3, item_type := "brand", brand_id := some (JVal.i 2),
           carrier := some 9 }]).2,
      r ∈ [({ region := 2, order := 3, item_type := "brand", brand_id := some (JVal.i 2),
              carrier := some 9 } : FeedItem)] :=
  C3_malformed_entry_400_no_insert [("us", 2)]
    [("us", [[JVal.s "app", JVal.i 1], [JVal.s "collection"]])]
    [{ region := 2, order := 3, item_type := "brand", brand_id := some (JVal.i 2),
       carrier := some 9 }]
    [2] (by decide) (by decide) (by decide)

/-- C4: a feed-collection create whose apps list contains an id that does
not resolve to an existing app fails — after the base record has been
validated and saved — with a 400 carrying the fixed doesnt_exist message,
and the saved base record is still persisted (nothing deletes or rolls it
back). -/
theorem C4_create_bad_apps_leaves_record
    (webapps : List Int) (req : CreateRequest) (db : List BaseFeedCollection)
    (newPk : Nat) (hv : req.valid = true)
    (hbad : ∃ a ∈ req.apps, a ∉ webapps) :
    (create webapps req db newPk).1 =
      { status := 400,
        detail := some ("One or more of the specified `apps` do not exist.") } ∧
    ({ pk := newPk, fields := req.data, apps := [] } : BaseFeedCollection) ∈
      (create webapps req db newPk).2 := by
  rw [create]
  simp only [hv, eq_self_iff_true, if_true, set_apps_bad hbad]
  exact ⟨trivial, List.mem_append.mpr (Or.inr (List.mem_cons_self _ _))⟩

/-- Witness for C4. -/
theorem C4_witness :
    (create [10, 11] { data := [("slug", "cool-apps")], apps := [10, 99], valid := true }
        [] 1).1 =
      { status := 400,
        detail := some ("One or more of the specified `apps` do not exist.") } ∧
    ({ pk := 1, fields := [("slug", "cool-apps")], apps := [] } : BaseFeedCollection) ∈
      (create [10, 11] { data := [("slug", "cool-apps")], apps := [10, 99], valid := true }
        [] 1).2 :=
  C4_create_bad_apps_leaves_record [10, 11]
    { data := [("slug", "cool-apps")], apps := [10, 99], valid := true } [] 1
    (by decide) (by decide)

/-- C5: on a feed-collection update, app resolution (set_apps against the
existing object) runs before the generic field update; when it fails, the
response is the 400 with the fixed message and the returned record is the
existing object itself — every base field unchanged, the field update never
executed. -/
theorem C5_update_resolution_failure_blocks_field_update
    (webapps : List Int) (newData : List (String × String)) (apps : List Int)
    (obj : BaseFeedCollection) (hbad : ∃ a ∈ apps, a ∉ webapps) :
    update webapps newData apps obj =
      ({ status := 400,
         detail := some ("One or more of the specified `apps` do not exist.") }, obj) := by
  rw [update]
  simp only [set_apps_bad hbad]

/-- Witness for C5. -/
theorem C5_witness :
    update [3] [("slug", "changed")] [4]
        { pk := 7, fields := [("slug", "orig")], apps := [3] } =
      ({ status := 400,
         detail := some ("One or more of the specified `apps` do not exist.") },
       { pk := 7, fields := [("slug", "orig")], apps := [3] }) :=
  C5_update_resolution_failure_blocks_field_update [3] [("slug", "changed")] [4]
    { pk := 7, fields := [("slug", "orig")], apps := [3] }
    ⟨4, by decide, by decide⟩

/-- C6: a rebuild run whose region names all resolve deletes exactly the
carrier-less FeedItem rows whose region is in the submitted set: the
resulting table is the original filtered by keepRow (so precisely those
rows are gone) plus only rows the run itself built — all carrier-less and
inside the submitted set; in particular every stored row with a non-null
carrier, or with a region outside the submitted set, is still present. -/
theorem C6_delete_scope
    (dict : List (String × Nat)) (payload : List (String × List (List JVal)))
    (db : List FeedItem) (rids : List Nat)
    (h1 : resolveRegions dict (payload.map Prod.fst) = some rids) :
    ∃ inserted,
      (put dict payload db).2 = db.filter (keepRow rids) ++ inserted ∧
      (∀ r ∈ inserted, r.carrier = none ∧ r.region ∈ rids) ∧
      ∀ r ∈ db, keepRow rids r = true → r ∈ (put dict payload db).2 := by
  cases hbi : buildItems dict payload with
  | error err =>
    refine ⟨[], ?_, fun r hr => absurd hr (List.not_mem_nil r), ?_⟩
    · cases err <;> (rw [put]; simp only [h1, hbi, List.append_nil])
    · intro r hr hk
      cases err <;> (rw [put]; simp only [h1, hbi]) <;>
        exact List.mem_filter.mpr ⟨hr, hk⟩
  | ok items =>
    refine ⟨items, ?_, buildItems_ok_regions h1 hbi, ?_⟩
    · rw [put]
      simp only [h1, hbi]
    · intro r hr hk
      rw [put]
      simp only [h1, hbi]
      exact List.mem_append_left _ (List.mem_filter.mpr ⟨hr, hk⟩)

/-- Witness for C6: one recognized region, one carrier-scoped row and one
foreign-region row that must survive. -/
theorem C6_witness :
    ∃ inserted,
      (put [("us", 2)] [("us", [[JVal.s "brand", JVal.i 8]])]
          [{ region := 2, order := 0, item_type := "app", app_id := some (JVal.i 1) },
           { region := 5, order := 0, item_type := "app", app_id := some (JVal.i 2) },
           { region := 2, order := 1, item_type := "app", app_id := some (JVal.i 3),
             carrier := some 1 }]).2 =
        [{ region := 2, order := 0, item_type := "app", app_id := some (JVal.i 1) },
         { region := 5, order := 0, item_type := "app", app_id := some (JVal.i 2) },
         { region := 2, order := 1, item_type := "app", app_id := some (JVal.i 3),
           carrier := some 1 }].filter (keepRow [2]) ++ inserted ∧
      (∀ r ∈ inserted, r.carrier = none ∧ r.region ∈ [2]) ∧
      ∀ r ∈ [({ region := 2, order := 0, item_type := "app", app_id := some (JVal.i 1) } : FeedItem),
             { region := 5, order := 0, item_type := "app", app_id := some (JVal.i 2) },
             { region := 2, order := 1, item_type := "app", app_id := some (JVal.i 3),
               carrier := some 1 }],
        keepRow [2] r = true →
          r ∈ (put [("us", 2)] [("us", [[JVal.s "brand", JVal.i 8]])]
            [{ region := 2, order := 0, item_type := "app", app_id := some (JVal.i 1) },
             { region := 5, order := 0, item_type := "app", app_id := some (JVal.i 2) },
             { region := 2, order := 1, item_type := "app", app_id := some (JVal.i 3),
               carrier := some 1 }]).2 :=
  C6_delete_scope [("us", 2)] [("us", [[JVal.s "brand", JVal.i 8]])]
    [{ region := 2, order := 0, item_type := "app", app_id := some (JVal.i 1) },
     { region := 5, order := 0, item_type := "app", app_id := some (JVal.i 2) },
     { region := 2, order := 1, item_type := "app", app_id := some (JVal.i 3),
       carrier := some 1 }]
    [2] (by decide)

/-- C7: when a valid-shape rebuild submits an empty list for a recognized
region and the request succeeds, that region ends with zero carrier-less
FeedItem rows: its previous carrier-less rows were deleted and none were
inserted for it. -/
theorem C7_empty_list_empties_region
    (dict : List (String × Nat)) (payload : List (String × List (List JVal)))
    (db : List FeedItem) (rids : List Nat) (name : String) (rid : Nat)
    (h1 : resolveRegions dict (payload.map Prod.fst) = some rids)
    (h2 : rids.Nodup)
    (hmem : (name, ([] : List (List JVal))) ∈ payload)
    (hlook : dict.lookup name = some rid)
    (hsucc : (put dict payload db).1 = PutResult.created) :
    (put dict payload db).2.filter (carrierlessIn rid) = [] := by
  have hridmem : rid ∈ rids :=
    resolve_lookup_mem h1 (List.mem_map_of_mem Prod.fst hmem) hlook
  cases hbi : buildItems dict payload with
  | error err =>
    exfalso
    cases err <;> (rw [put] at hsucc; simp only [h1, hbi] at hsucc) <;>
      exact PutResult.noConfusion hsucc
  | ok items =>
    obtain ⟨rows, hbr, hfil⟩ := buildItems_filter h1 h2 hbi hmem hlook
    have hrows : rows = [] := by
      have hnil : buildRegion rid 0 ([] : List (List JVal)) = Except.ok [] := rfl
      rw [hnil] at hbr
      injection hbr with hbr
      exact hbr.symm
    rw [put]
    simp only [h1, hbi]
    rw [List.filter_append, filter_keep_filter_carrierless hridmem db, hfil, hrows,
      List.nil_append]

/-- Witness for C7: region "uk" is rebuilt to the empty list while "us"
receives one app; the prior carrier-less "uk" row disappears. -/
theorem C7_witness :
    (put [("us", 2), ("uk", 4)]
        [("us", [[JVal.s "app", JVal.i 6]]), ("uk", [])]
        [{ region := 4, order := 0, item_type := "app", app_id := some (JVal.i 5) },
         { region := 4, order := 1, item_type := "app", app_id := some (JVal.i 7),
           carrier := some 3 }]).2.filter (carrierlessIn 4) = [] :=
  C7_empty_list_empties_region [("us", 2), ("uk", 4)]
    [("us", [[JVal.s "app", JVal.i 6]]), ("uk", [])]
    [{ region := 4, order := 0, item_type := "app", app_id := some (JVal.i 5) },
     { region := 4, order := 1, item_type := "app", app_id := some (JVal.i 7),
       carrier := some 3 }]
    [2, 4] "uk" 4 (by decide) (by decide) (by decide) (by decide) (by decide)

/-- C8: the post_save receiver sends the index exactly the one-element
reindex of the saved record's id, the post_delete receiver the de-index of
the deleted record's id — synchronously, in the same request step — and
consequently a store whose rows and index agree still agrees after any
save or delete event: index and rows never diverge. -/
theorem C8_website_index_sync
    (w : Website) (st : WebsiteState) (e : WebsiteEvent) (h : inSync st = true) :
    signalOps (WebsiteEvent.save w) = [IndexOp.index_ids [w.id]] ∧
    signalOps (WebsiteEvent.del w) = [IndexOp.unindex w.id] ∧
    inSync (stepWebsite st e) = true :=
  ⟨rfl, rfl, stepWebsite_preserves_inSync st e h⟩

/-- Witness for C8: deleting the only stored website empties the index. -/
theorem C8_witness :
    inSync { rows := [{ id := 3, url := "u", title := "t", status := 4,
                        is_disabled := false }], index := [3] } = true ∧
    signalOps (WebsiteEvent.del { id := 3, url := "u", title := "t", status := 4,
                                  is_disabled := false }) = [IndexOp.unindex 3] ∧
    inSync (stepWebsite
      { rows := [{ id := 3, url := "u", title := "t", status := 4,
                   is_disabled := false }], index := [3] }
      (WebsiteEvent.del { id := 3, url := "u", title := "t", status := 4,
                          is_disabled := false })) = true := by
  have h := C8_website_index_sync
    { id := 3, url := "u", title := "t", status := 4, is_disabled := false }
    { rows := [{ id := 3, url := "u", title := "t", status := 4,
                 is_disabled := false }], index := [3] }
    (WebsiteEvent.del { id := 3, url := "u", title := "t", status := 4,
                        is_disabled := false })
    (by decide)
  exact ⟨by decide, h.2.1, h.2.2⟩

/-- C9 as frozen is false on the code: with every region name recognized
and a malformed (one-element) entry present, an earlier two-element entry
whose first component is an integer makes line 138 (item_type + '_id')
raise an uncaught TypeError, so no 400 response is produced at all — even
though the deletion of the submitted regions has already happened (the
final table here is empty). -/
theorem C9_counterexample :
    isBadRequest (put [("us", 2)]
        [("us", [[JVal.i 1, JVal.i 2], [JVal.s "app"]])]
        [{ region := 2, order := 0, item_type := "app" }]).1 = false ∧
    (put [("us", 2)] [("us", [[JVal.i 1, JVal.i 2], [JVal.s "app"]])]
        [{ region := 2, order := 0, item_type := "app" }]).1 = PutResult.pyError ∧
    (put [("us", 2)] [("us", [[JVal.i 1, JVal.i 2], [JVal.s "app"]])]
        [{ region := 2, order := 0, item_type := "app" }]).2 = [] := by
  decide

/-- C9 (amended): when every region name is recognized, every two-element
entry is well-formed and some entry is not a two-element array, the 400 is
returned only after the carrier-less rows of every submitted region have
already been deleted (the final table is exactly the keepRow filter of the
original), no row is inserted for any region, and every submitted region is
left with zero carrier-less rows: the request is not atomic. -/
theorem C9_nonatomic_400_after_deletes
    (dict : List (String × Nat)) (payload : List (String × List (List JVal)))
    (db : List FeedItem) (rids : List Nat)
    (h1 : resolveRegions dict (payload.map Prod.fst) = some rids)
    (hw : ∀ p ∈ payload, ∀ e ∈ p.2, e.length = 2 → validEntry e = true)
    (hbad : ∃ p ∈ payload, ∃ e ∈ p.2, e.length ≠ 2) :
    (put dict payload db).1 = PutResult.badRequest ("Expected two-element arrays.") ∧
    (put dict payload db).2 = db.filter (keepRow rids) ∧
    (∀ rid ∈ rids, (put dict payload db).2.filter (carrierlessIn rid) = []) ∧
    ∀ r ∈ (put dict payload db).2, r ∈ db := by
  have h := @put_malformed dict payload db rids h1 hw hbad
  refine ⟨by rw [h], by rw [h], ?_, ?_⟩
  · intro rid hrid
    rw [h]
    exact filter_keep_filter_carrierless hrid db
  · intro r hr
    rw [h] at hr
    exact (List.mem_filter.mp hr).1

/-- Witness for the amended C9: the malformed entry sits in "uk" while the
entries of "us" are perfectly well-formed, yet the carrier-less "us" row is
gone too. -/
theorem C9_witness :
    (put [("us", 2), ("uk", 4)]
        [("us", [[JVal.s "app", JVal.i 5]]), ("uk", [[JVal.s "app"]])]
        [{ region := 2, order := 0, item_type := "app", app_id := some (JVal.i 1) },
         { region := 4, order := 0, item_type := "app", app_id := some (JVal.i 2),
           carrier := some 6 }]).1 =
      PutResult.badRequest ("Expected two-element arrays.") ∧
    (put [("us", 2), ("uk", 4)]
        [("us", [[JVal.s "app", JVal.i 5]]), ("uk", [[JVal.s "app"]])]
        [{ region := 2, order := 0, item_type := "app", app_id := some (JVal.i 1) },
         { region := 4, order := 0, item_type := "app", app_id := some (JVal.i 2),
           carrier := some 6 }]).2 =
      [{ region := 2, order := 0, item_type := "app", app_id := some (JVal.i 1) },
       { region := 4, order := 0, item_type := "app", app_id := some (JVal.i 2),
         carrier := some 6 }].filter (keepRow [2, 4]) ∧
    (∀ rid ∈ [2, 4],
      (put [("us", 2), ("uk", 4)]
          [("us", [[JVal.s "app", JVal.i 5]]), ("uk", [[JVal.s "app"]])]
          [{ region := 2, order := 0, item_type := "app", app_id := some (JVal.i 1) },
           { region := 4, order := 0, item_type := "app", app_id := some (JVal.i 2),
             carrier := some 6 }]).2.filter (carrierlessIn rid) = []) ∧
    ∀ r ∈ (put [("us", 2), ("uk", 4)]
        [("us", [[JVal.s "app", JVal.i 5]]), ("uk", [[JVal.s "app"]])]
        [{ region := 2, order := 0, item_type := "app", app_id := some (JVal.i 1) },
         { region := 4, order := 0, item_type := "app", app_id := some (JVal.i 2),
           carrier := some 6 }]).2,
      r ∈ [({ region := 2, order := 0, item_type := "app", app_id := some (JVal.i 1) } : FeedItem),
           { region := 4, order := 0, item_type := "app", app_id := some (JVal.i 2),
             carrier := some 6 }] :=
  C9_nonatomic_400_after_deletes [("us", 2), ("uk", 4)]
    [("us", [[JVal.s "app", JVal.i 5]]), ("uk", [[JVal.s "app"]])]
    [{ region := 2, order := 0, item_type := "app", app_id := some (JVal.i 1) },
     { region := 4, order := 0, item_type := "app", app_id := some (JVal.i 2),
       carrier := some 6 }]
    [2, 4] (by decide) (by decide) (by decide)

/-- C10: with an empty apps value (or an absent one, popped as []), the
view-level set_apps is a no-op: it never raises and returns the object
unchanged, and an update with apps = [] succeeds and leaves the record's
existing app association exactly as it was — submitting apps: [] cannot
clear it. -/
theorem C10_empty_apps_noop
    (webapps : List Int) (obj : BaseFeedCollection)
    (newData : List (String × String)) :
    set_apps webapps obj [] = Except.ok obj ∧
    (update webapps newData [] obj).1.status = 200 ∧
    (update webapps newData [] obj).2.apps = obj.apps :=
  ⟨rfl, rfl, rfl⟩
